import Mathlib

/-!
Verification of the gesture-universe hand-gesture recognition pipeline.

This file gives a shallow embedding, in Lean 4, of the numeric core of the
pipeline: palm-detector decoding and non-max suppression
(src/pipeline/recognizer/palm/mod.rs), letterbox preprocessing and the rotated
crop transform (src/pipeline/recognizer/common.rs), the gesture classifier and
motion tracker (src/gesture.rs), and the recognizer worker's queue drain and
result assembly (src/recognizer/mod.rs).

Embedding conventions:
* `f32` values are modelled by `ℚ`; decimal literals of the source (`0.2`,
  `0.55`, ...) are represented by the corresponding exact rationals, and all
  algebra is exact.  `usize`/`u32` are modelled by `ℕ` (Rust's
  `saturating_sub` coincides with truncated `ℕ` subtraction).
* Transcendental library routines of the source (`f32::exp`, `f32::sqrt`,
  `cos`/`sin`) are approximation routines even in Rust; they enter the
  embedding as explicit function parameters (`expQ`, `sq`) or, for the crop
  transform, as the precomputed pair (cos θ, sin θ) that both source
  functions derive from the stored angle.
* External collaborators (the ONNX inference engine, the `fast_image_resize`
  crate, the anchor table generated outside `src/`) are parameters of the
  definitions that call them.
* Fallible Rust functions returning `anyhow::Result` become `Except String`;
  `Instant` timestamps become `ℚ` (seconds).
-/

namespace GestureUniverse

/-- Axis-aligned box `[x1, y1, x2, y2]`, the `bbox: [f32; 4]` of the source. -/
structure Box where
  x1 : ℚ
  y1 : ℚ
  x2 : ℚ
  y2 : ℚ
deriving DecidableEq, Repr

/-- Intersection-over-union of two axis-aligned boxes, from `iou` in
src/pipeline/recognizer/palm/mod.rs. -/
def iou (a b : Box) : ℚ :=
  let x1 := max a.x1 b.x1
  let y1 := max a.y1 b.y1
  let x2 := min a.x2 b.x2
  let y2 := min a.y2 b.y2
  let interW := max (x2 - x1) 0
  let interH := max (y2 - y1) 0
  let inter := interW * interH
  if inter ≤ 0 then 0
  else
    let areaA := max (a.x2 - a.x1) 0 * max (a.y2 - a.y1) 0
    let areaB := max (b.x2 - b.x1) 0 * max (b.y2 - b.y1) 0
    let union := areaA + areaB - inter
    if union ≤ 0 then 0 else inter / union

/-- Palm candidate prior to NMS, `PalmCandidate` of
src/pipeline/recognizer/palm/mod.rs. -/
structure PalmCandidate where
  bbox : Box
  landmarks : List (ℚ × ℚ)
  score : ℚ
deriving DecidableEq, Repr

/-- Score of the candidate at index `i` (indices produced by `nms` are always
in range; out-of-range reads default to `0`). -/
def scoreAt (cands : List PalmCandidate) (i : ℕ) : ℚ :=
  ((cands.get? i).map PalmCandidate.score).getD 0

/-- Bounding box of the candidate at index `i`. -/
def bboxAt (cands : List PalmCandidate) (i : ℕ) : Box :=
  ((cands.get? i).map PalmCandidate.bbox).getD ⟨0, 0, 0, 0⟩

/-- Comparator of the `sort_by` call in `nms`: index `i` precedes `j` when its
score is at least as large (descending order). -/
def scoreGE (cands : List PalmCandidate) (i j : ℕ) : Prop :=
  scoreAt cands j ≤ scoreAt cands i

instance (cands : List PalmCandidate) : DecidableRel (scoreGE cands) := fun i j =>
  inferInstanceAs (Decidable (scoreAt cands j ≤ scoreAt cands i))

instance (cands : List PalmCandidate) : IsTotal ℕ (scoreGE cands) :=
  ⟨fun i j => le_total (scoreAt cands j) (scoreAt cands i)⟩

instance (cands : List PalmCandidate) : IsTrans ℕ (scoreGE cands) :=
  ⟨fun _ _ _ h1 h2 => le_trans h2 h1⟩

/-- Candidate indices sorted by score descending, the `order` vector of `nms`
(a stable sort, like Rust's stable `sort_by`). -/
def nmsOrder (cands : List PalmCandidate) : List ℕ :=
  List.insertionSort (scoreGE cands) (List.range cands.length)

/-- Greedy suppression loop of `nms`: keep an index only if its IoU with every
already-kept index is below `threshold`; stop once `topK` indices are kept. -/
def nmsLoop (cands : List PalmCandidate) (threshold : ℚ) (topK : ℕ) :
    List ℕ → List ℕ → List ℕ
  | [], keep => keep
  | idx :: rest, keep =>
    if keep.all (fun k => decide (iou (bboxAt cands idx) (bboxAt cands k) < threshold)) then
      if topK ≤ keep.length + 1 then keep ++ [idx]
      else nmsLoop cands threshold topK rest (keep ++ [idx])
    else nmsLoop cands threshold topK rest keep

/-- Greedy NMS from src/pipeline/recognizer/palm/mod.rs: returns the kept
candidate indices. -/
def nms (cands : List PalmCandidate) (threshold : ℚ) (topK : ℕ) : List ℕ :=
  nmsLoop cands threshold topK (nmsOrder cands) []

/-- Palm region surviving NMS, `PalmRegion` of src/types.rs. -/
structure PalmRegion where
  bbox : Box
  landmarks : List (ℚ × ℚ)
  score : ℚ
deriving DecidableEq, Repr

/-- One step of Rust's `Iterator::max_by` as used by `pick_primary_region`:
the accumulator survives only when it compares strictly greater
(`partial_cmp … == Ordering::Greater`), so on ties the newer element wins. -/
def maxByScore (a x : PalmRegion) : PalmRegion := if x.score < a.score then a else x

/-- Primary-region selection from src/pipeline/recognizer/palm/mod.rs:
`regions.iter().max_by(score comparison)`. -/
def pick_primary_region : List PalmRegion → Option PalmRegion
  | [] => none
  | r :: rest => some (rest.foldl maxByScore r)

/-- Letterbox bookkeeping, `LetterboxInfo` of src/pipeline/recognizer/common.rs. -/
structure LetterboxInfo where
  scale : ℚ
  pad_x : ℚ
  pad_y : ℚ
  orig_w : ℕ
  orig_h : ℕ
deriving Repr

/-- `PalmDetectorConfig` of src/pipeline/recognizer/palm/mod.rs. -/
structure PalmDetectorConfig where
  score_threshold : ℚ
  nms_threshold : ℚ
  top_k : ℕ
deriving Repr

/-- The `Default` impl: score threshold 0.5, NMS threshold 0.3, top_k 32. -/
def PalmDetectorConfig.mkDefault : PalmDetectorConfig := ⟨1/2, 3/10, 32⟩

/-- `PALM_INPUT_SIZE` of src/pipeline/recognizer/common.rs. -/
def PALM_INPUT_SIZE : ℕ := 192

/-- `PALM_LANDMARKS` of src/pipeline/recognizer/palm/mod.rs. -/
def PALM_LANDMARKS : ℕ := 7

/-- `sigmoid` of src/pipeline/recognizer/palm/mod.rs; `f32::exp` enters as the
parameter `expQ`. -/
def sigmoid (expQ : ℚ → ℚ) (x : ℚ) : ℚ := 1 / (1 + expQ (-x))

/-- Rust `f32::clamp(lo, hi)`. -/
def clampQ (x lo hi : ℚ) : ℚ := min (max x lo) hi

/-- `clamp_box` of src/pipeline/recognizer/palm/mod.rs: clamp all four corners
into `[0, w-1] × [0, h-1]` (`saturating_sub` is truncated `ℕ` subtraction). -/
def clamp_box (b : Box) (w h : ℕ) : Box :=
  ⟨clampQ b.x1 0 ((w - 1 : ℕ) : ℚ), clampQ b.y1 0 ((h - 1 : ℕ) : ℚ),
   clampQ b.x2 0 ((w - 1 : ℕ) : ℚ), clampQ b.y2 0 ((h - 1 : ℕ) : ℚ)⟩

/-- The inner keypoint loop of `decode_palm_outputs` for the indices
`l = 0, …, PALM_LANDMARKS-1`; `none` models the missing-landmark errors. -/
def decodePalmLandmarksAux (boxLandmark : List ℚ) (featureOffset : ℕ) (anchor : ℚ × ℚ)
    (scale padBiasX padBiasY : ℚ) : List ℕ → Option (List (ℚ × ℚ))
  | [] => some []
  | l :: rest =>
    match boxLandmark.get? (featureOffset + 4 + l * 2),
          boxLandmark.get? (featureOffset + 4 + l * 2 + 1) with
    | some lxRaw, some lyRaw =>
      match decodePalmLandmarksAux boxLandmark featureOffset anchor scale padBiasX padBiasY
          rest with
      | some tail =>
        some (((lxRaw / (PALM_INPUT_SIZE : ℚ) + anchor.1) * scale - padBiasX,
               (lyRaw / (PALM_INPUT_SIZE : ℚ) + anchor.2) * scale - padBiasY) :: tail)
      | none => none
    | _, _ => none

/-- The 7 palm keypoints of one anchor (the `for l in 0..PALM_LANDMARKS` loop). -/
def decodePalmLandmarks (boxLandmark : List ℚ) (featureOffset : ℕ) (anchor : ℚ × ℚ)
    (scale padBiasX padBiasY : ℚ) : Option (List (ℚ × ℚ)) :=
  decodePalmLandmarksAux boxLandmark featureOffset anchor scale padBiasX padBiasY
    (List.range PALM_LANDMARKS)

/-- One anchor of the decoding loop in `decode_palm_outputs`: sigmoid score
thresholding, anchor-relative box decoding, degenerate-box drop, clamping,
keypoint decoding.  `ok none` models `continue`; `error` models the
data-missing errors (merged into one message per kind). -/
def decodeAnchor (expQ : ℚ → ℚ) (anchors : List (ℚ × ℚ)) (boxLandmark scores : List ℚ)
    (featureDim scoreFeatureDim : ℕ) (letterbox : LetterboxInfo)
    (cfg : PalmDetectorConfig) (anchorIdx : ℕ) : Except String (Option PalmCandidate) :=
  let padBiasX := letterbox.pad_x / letterbox.scale
  let padBiasY := letterbox.pad_y / letterbox.scale
  let scale : ℚ := ((max letterbox.orig_w letterbox.orig_h : ℕ) : ℚ)
  match scores.get? (anchorIdx * scoreFeatureDim) with
  | none => .error "missing score for palm anchor"
  | some rawScore =>
    let score := sigmoid expQ rawScore
    if score < cfg.score_threshold then .ok none
    else
      match anchors.get? anchorIdx with
      | none => .error "missing anchor"
      | some anchor =>
        match boxLandmark.get? (anchorIdx * featureDim),
              boxLandmark.get? (anchorIdx * featureDim + 1),
              boxLandmark.get? (anchorIdx * featureDim + 2),
              boxLandmark.get? (anchorIdx * featureDim + 3) with
        | some cxRaw, some cyRaw, some wRaw, some hRaw =>
          let cx := cxRaw / (PALM_INPUT_SIZE : ℚ) + anchor.1
          let cy := cyRaw / (PALM_INPUT_SIZE : ℚ) + anchor.2
          let hw := wRaw / (PALM_INPUT_SIZE : ℚ) / 2
          let hh := hRaw / (PALM_INPUT_SIZE : ℚ) / 2
          let x1 := (cx - hw) * scale - padBiasX
          let y1 := (cy - hh) * scale - padBiasY
          let x2 := (cx + hw) * scale - padBiasX
          let y2 := (cy + hh) * scale - padBiasY
          if x2 ≤ x1 ∨ y2 ≤ y1 then .ok none
          else
            match decodePalmLandmarks boxLandmark (anchorIdx * featureDim) anchor scale
                padBiasX padBiasY with
            | none => .error "missing palm landmark"
            | some lms =>
              .ok (some ⟨clamp_box ⟨x1, y1, x2, y2⟩ letterbox.orig_w letterbox.orig_h,
                lms, score⟩)
        | _, _, _, _ => .error "missing box delta for anchor"

/-- The candidate-collection loop of `decode_palm_outputs`, over the anchor
indices in order, threading the accumulated candidate vector. -/
def collectCandidatesAux (expQ : ℚ → ℚ) (anchors : List (ℚ × ℚ))
    (boxLandmark scores : List ℚ) (featureDim scoreFeatureDim : ℕ)
    (letterbox : LetterboxInfo) (cfg : PalmDetectorConfig) :
    List ℕ → List PalmCandidate → Except String (List PalmCandidate)
  | [], acc => .ok acc
  | i :: rest, acc =>
    match decodeAnchor expQ anchors boxLandmark scores featureDim scoreFeatureDim
        letterbox cfg i with
    | .error e => .error e
    | .ok none =>
      collectCandidatesAux expQ anchors boxLandmark scores featureDim scoreFeatureDim
        letterbox cfg rest acc
    | .ok (some c) =>
      collectCandidatesAux expQ anchors boxLandmark scores featureDim scoreFeatureDim
        letterbox cfg rest (acc ++ [c])

/-- The `for anchor_idx in 0..anchors` loop of `decode_palm_outputs`. -/
def collectCandidates (expQ : ℚ → ℚ) (anchors : List (ℚ × ℚ))
    (boxLandmark scores : List ℚ) (featureDim scoreFeatureDim : ℕ)
    (letterbox : LetterboxInfo) (cfg : PalmDetectorConfig) (n : ℕ) :
    Except String (List PalmCandidate) :=
  collectCandidatesAux expQ anchors boxLandmark scores featureDim scoreFeatureDim
    letterbox cfg (List.range n) []

/-- The final loop of `decode_palm_outputs`: map kept indices back to
candidates and convert them into `PalmRegion`s. -/
def regionsFromKept (cands : List PalmCandidate) (kept : List ℕ) : List PalmRegion :=
  kept.filterMap (fun i => (cands.get? i).map (fun c => ⟨c.bbox, c.landmarks, c.score⟩))

/-- `decode_palm_outputs` of src/pipeline/recognizer/palm/mod.rs,
parameterised by the exp routine and the anchor table (`ANCHORS` is generated
outside src/; `NUM_ANCHORS` is its length). -/
def decode_palm_outputs (expQ : ℚ → ℚ) (anchors : List (ℚ × ℚ))
    (boxLandmark : List ℚ) (boxShape : List ℕ) (scores : List ℚ) (scoreShape : List ℕ)
    (letterbox : LetterboxInfo) (cfg : PalmDetectorConfig) :
    Except String (List PalmRegion) :=
  if boxShape.length < 3 then .error "unexpected palm box shape"
  else if scoreShape.length < 3 then .error "unexpected palm score shape"
  else
    match boxShape.get? (boxShape.length - 2), boxShape.getLast?,
          scoreShape.get? (scoreShape.length - 2), scoreShape.getLast? with
    | some anchorDim, some featureDim, some scoreAnchorDim, some scoreFeatureDim =>
      if featureDim < 4 + PALM_LANDMARKS * 2 then
        .error "palm box feature dimension too small"
      else if anchorDim ≠ scoreAnchorDim then
        .error "anchor dimension mismatch between boxes and scores"
      else
        match collectCandidates expQ anchors boxLandmark scores featureDim scoreFeatureDim
            letterbox cfg (min anchors.length anchorDim) with
        | .error e => .error e
        | .ok cands => .ok (regionsFromKept cands (nms cands cfg.nms_threshold cfg.top_k))
    | _, _, _, _ => .error "missing dimension in palm shape"

/-- Invariant of every decoded palm bbox/score: corners clamped into
`[0, w-1] × [0, h-1]` and ordered, score in `[0, 1]`, and the clamped bbox
originates from a non-degenerate raw box (degenerate boxes were dropped
before NMS). -/
def regionInvariant (letterbox : LetterboxInfo) (bbox : Box) (score : ℚ) : Prop :=
  (0 ≤ bbox.x1 ∧ bbox.x1 ≤ ((letterbox.orig_w - 1 : ℕ) : ℚ)) ∧
  (0 ≤ bbox.y1 ∧ bbox.y1 ≤ ((letterbox.orig_h - 1 : ℕ) : ℚ)) ∧
  (0 ≤ bbox.x2 ∧ bbox.x2 ≤ ((letterbox.orig_w - 1 : ℕ) : ℚ)) ∧
  (0 ≤ bbox.y2 ∧ bbox.y2 ≤ ((letterbox.orig_h - 1 : ℕ) : ℚ)) ∧
  bbox.x1 ≤ bbox.x2 ∧ bbox.y1 ≤ bbox.y2 ∧
  (0 ≤ score ∧ score ≤ 1) ∧
  ∃ raw : Box, raw.x1 < raw.x2 ∧ raw.y1 < raw.y2 ∧
    bbox = clamp_box raw letterbox.orig_w letterbox.orig_h

/-- `Frame` of src/types.rs: RGBA bytes (row-major) with dimensions and a
capture timestamp (`Instant` modelled as seconds in ℚ). -/
structure Frame where
  rgba : List ℕ
  width : ℕ
  height : ℕ
  timestamp : ℚ
deriving Repr

/-- `CropTransform` of src/pipeline/recognizer/common.rs.  The source stores
the angle in radians; both `prepare_rotated_crop` and `project` use only
`angle.cos()` and `angle.sin()`, so the embedding stores that pair. -/
structure CropTransform where
  center : ℚ × ℚ
  side : ℚ
  angleCos : ℚ
  angleSin : ℚ
  output_size : ℕ
  orig_w : ℕ
  orig_h : ℕ
deriving Repr

/-- The in-bounds pixel fetch of `sample_rgb` (black outside the frame or
past the end of the buffer). -/
def fetchPixel (frame : Frame) (ix iy : ℤ) : ℚ × ℚ × ℚ :=
  if ix < 0 ∨ iy < 0 ∨ (frame.width : ℤ) ≤ ix ∨ (frame.height : ℤ) ≤ iy then (0, 0, 0)
  else
    let idx := (iy.toNat * frame.width + ix.toNat) * 4
    if frame.rgba.length ≤ idx + 2 then (0, 0, 0)
    else ((frame.rgba.getD idx 0 : ℚ) / 255, (frame.rgba.getD (idx + 1) 0 : ℚ) / 255,
          (frame.rgba.getD (idx + 2) 0 : ℚ) / 255)

/-- Linear interpolation `a + (b - a) * t`. -/
def lerpQ (a b t : ℚ) : ℚ := a + (b - a) * t

/-- Bilinear RGB sampling, `sample_rgb` of src/pipeline/recognizer/common.rs
(ℚ has no NaN, so the NaN guard of the source is vacuous here). -/
def sample_rgb (frame : Frame) (x y : ℚ) : ℚ × ℚ × ℚ :=
  let x0 : ℤ := ⌊x⌋
  let y0 : ℤ := ⌊y⌋
  let fx := x - (x0 : ℚ)
  let fy := y - (y0 : ℚ)
  let c00 := fetchPixel frame x0 y0
  let c10 := fetchPixel frame (x0 + 1) y0
  let c01 := fetchPixel frame x0 (y0 + 1)
  let c11 := fetchPixel frame (x0 + 1) (y0 + 1)
  (lerpQ (lerpQ c00.1 c10.1 fx) (lerpQ c01.1 c11.1 fx) fy,
   lerpQ (lerpQ c00.2.1 c10.2.1 fx) (lerpQ c01.2.1 c11.2.1 fx) fy,
   lerpQ (lerpQ c00.2.2 c10.2.2 fx) (lerpQ c01.2.2 c11.2.2 fx) fy)

/-- Source coordinate sampled for destination pixel `(x, y)` in the
rasterisation loop of `prepare_rotated_crop`: rotation + uniform scale
`side/output_size` + translation by the centre, applied at the pixel centre
`(x + 0.5, y + 0.5)`. -/
def rasterSrc (t : CropTransform) (x y : ℕ) : ℚ × ℚ :=
  let half := (t.output_size : ℚ) / 2
  let scale := t.side / (t.output_size : ℚ)
  let dx := ((x : ℚ) + 1/2 - half) * scale
  let dy := ((y : ℚ) + 1/2 - half) * scale
  (t.center.1 + dx * t.angleCos - dy * t.angleSin,
   t.center.2 + dx * t.angleSin + dy * t.angleCos)

/-- Row-major RGB tensor data of the rasterisation loop of
`prepare_rotated_crop`. -/
def cropData (frame : Frame) (t : CropTransform) : List ℚ :=
  (List.range t.output_size).flatMap fun y =>
    (List.range t.output_size).flatMap fun x =>
      let p := sample_rgb frame (rasterSrc t x y).1 (rasterSrc t x y).2
      [p.1, p.2.1, p.2.2]

/-- The size-mismatch error text of src/pipeline/recognizer/common.rs. -/
def sizeMismatchMsg (got expected : ℕ) : String :=
  "frame buffer size mismatch: got " ++ toString got ++ ", expected " ++ toString expected

/-- `prepare_rotated_crop` of src/pipeline/recognizer/common.rs (cos/sin of
the rotation angle passed as the precomputed pair). -/
def prepare_rotated_crop (frame : Frame) (center : ℚ × ℚ) (side : ℚ)
    (angleCos angleSin : ℚ) (output_size : ℕ) :
    Except String (List ℚ × CropTransform) :=
  if frame.rgba.length ≠ frame.width * frame.height * 4 then
    .error (sizeMismatchMsg frame.rgba.length (frame.width * frame.height * 4))
  else
    let t : CropTransform :=
      ⟨center, side, angleCos, angleSin, output_size, frame.width, frame.height⟩
    .ok (cropData frame t, t)

/-- `CropTransform::project` of src/pipeline/recognizer/common.rs: map a
crop-space coordinate back to frame space and clamp to frame bounds. -/
def CropTransform.project (t : CropTransform) (x y : ℚ) : ℚ × ℚ :=
  let half := (t.output_size : ℚ) / 2
  let scale := t.side / (t.output_size : ℚ)
  let dx := (x - half) * scale
  let dy := (y - half) * scale
  let ox := t.center.1 + dx * t.angleCos - dy * t.angleSin
  let oy := t.center.2 + dx * t.angleSin + dy * t.angleCos
  (clampQ ox 0 ((t.orig_w - 1 : ℕ) : ℚ), clampQ oy 0 ((t.orig_h - 1 : ℕ) : ℚ))

/-- Per-pixel view of the letterbox canvas of `prepare_frame_with_size`:
black opaque background with the resized image pasted at `(padX, padY)`. -/
def letterboxCanvasPixel (resized : List ℕ) (newW newH padX padY : ℕ) (x y : ℕ) :
    List ℕ :=
  if padX ≤ x ∧ x < padX + newW ∧ padY ≤ y ∧ y < padY + newH then
    [resized.getD (((y - padY) * newW + (x - padX)) * 4) 0,
     resized.getD (((y - padY) * newW + (x - padX)) * 4 + 1) 0,
     resized.getD (((y - padY) * newW + (x - padX)) * 4 + 2) 0, 255]
  else [0, 0, 0, 255]

/-- `prepare_frame_with_size` of src/pipeline/recognizer/common.rs: validate
the buffer-length invariant, resize through the external `fast_image_resize`
collaborator (the `resize` parameter), letterbox onto a black square canvas,
and normalise to a row-major `(1, S, S, 3)` tensor in `[0, 1]`. -/
def prepare_frame_with_size (resize : List ℕ → ℕ → ℕ → ℕ → ℕ → List ℕ)
    (frame : Frame) (target_size : ℕ) :
    Except String (List ℚ × LetterboxInfo) :=
  if frame.rgba.length ≠ frame.width * frame.height * 4 then
    .error (sizeMismatchMsg frame.rgba.length (frame.width * frame.height * 4))
  else
    let scale : ℚ := (target_size : ℚ) / ((max frame.width frame.height : ℕ) : ℚ)
    let newW : ℕ := (max (round ((frame.width : ℚ) * scale)) 1).toNat
    let newH : ℕ := (max (round ((frame.height : ℚ) * scale)) 1).toNat
    let padX : ℕ := (max (((target_size : ℤ) - (newW : ℤ)) / 2) 0).toNat
    let padY : ℕ := (max (((target_size : ℤ) - (newH : ℤ)) / 2) 0).toNat
    let resized := resize frame.rgba frame.width frame.height newW newH
    let tensor : List ℚ :=
      (List.range target_size).flatMap fun y =>
        (List.range target_size).flatMap fun x =>
          let px := letterboxCanvasPixel resized newW newH padX padY x y
          [(px.getD 0 0 : ℚ) / 255, (px.getD 1 0 : ℚ) / 255, (px.getD 2 0 : ℚ) / 255]
    .ok (tensor, ⟨scale, (padX : ℚ), (padY : ℚ), frame.width, frame.height⟩)

/-- Finger flexion state (src/types.rs). -/
inductive FingerState
  | Extended
  | HalfBent
  | Folded
deriving DecidableEq, Repr

/-- Handedness (src/types.rs). -/
inductive Handedness
  | Left
  | Right
  | Unknown
deriving DecidableEq, Repr

/-- Motion pattern (src/types.rs). -/
inductive GestureMotion
  | Steady
  | Fanning
  | VerticalWave
  | Moving
deriving DecidableEq, Repr

/-- Gesture category (src/types.rs): the 34 learned HAGRID classes plus
`Unknown`. -/
inductive GestureKind
  | Call
  | Dislike
  | Fist
  | Four
  | Grabbing
  | Grip
  | HandHeart
  | HandHeart2
  | Holy
  | Like
  | LittleFinger
  | MiddleFinger
  | Mute
  | NoGesture
  | Ok
  | One
  | Palm
  | Peace
  | PeaceInverted
  | Point
  | Rock
  | Stop
  | StopInverted
  | TakePicture
  | Three
  | Three2
  | Three3
  | ThreeGun
  | ThumbIndex
  | ThumbIndex2
  | Timeout
  | TwoUp
  | TwoUpInverted
  | XSign
  | Unknown
deriving DecidableEq, Repr

/-- `GestureKind::display_name` of src/types.rs. -/
def GestureKind.display_name : GestureKind → String
  | .Call => "打电话"
  | .Dislike => "点踩"
  | .Fist => "握拳"
  | .Four => "四指"
  | .Grabbing => "抓取"
  | .Grip => "握持"
  | .HandHeart => "比心"
  | .HandHeart2 => "比心2"
  | .Holy => "祈祷"
  | .Like => "点赞"
  | .LittleFinger => "小指"
  | .MiddleFinger => "中指"
  | .Mute => "静音"
  | .NoGesture => "无手势"
  | .Ok => "OK"
  | .One => "一"
  | .Palm => "手掌"
  | .Peace => "和平/剪刀手"
  | .PeaceInverted => "倒V"
  | .Point => "指向"
  | .Rock => "摇滚"
  | .Stop => "停止"
  | .StopInverted => "倒停止"
  | .TakePicture => "拍照"
  | .Three => "三指"
  | .Three2 => "三指2"
  | .Three3 => "三指3"
  | .ThreeGun => "三指枪"
  | .ThumbIndex => "拇指食指"
  | .ThumbIndex2 => "拇指食指2"
  | .Timeout => "暂停"
  | .TwoUp => "两指向上"
  | .TwoUpInverted => "倒两指"
  | .XSign => "X标志"
  | .Unknown => "未知手势"

/-- `GestureKind::emoji` of src/types.rs. -/
def GestureKind.emoji : GestureKind → String
  | .Call => "🤙 "
  | .Dislike => "👎 "
  | .Fist => "✊ "
  | .Four => "🖖 "
  | .Grabbing => "🤜 "
  | .Grip => "✊ "
  | .HandHeart => "🫰 "
  | .HandHeart2 => "🫶 "
  | .Holy => "🙏 "
  | .Like => "👍 "
  | .LittleFinger => "🤙 "
  | .MiddleFinger => "🖕 "
  | .Mute => "🤐 "
  | .NoGesture => "⋯ "
  | .Ok => "👌 "
  | .One => "☝️ "
  | .Palm => "🖐 "
  | .Peace => "✌️ "
  | .PeaceInverted => "🤞 "
  | .Point => "👉 "
  | .Rock => "🤘 "
  | .Stop => "✋ "
  | .StopInverted => "🤚 "
  | .TakePicture => "📸 "
  | .Three => "🤟 "
  | .Three2 => "👌 "
  | .Three3 => "🤏 "
  | .ThreeGun => "👈 "
  | .ThumbIndex => "🤏 "
  | .ThumbIndex2 => "👌 "
  | .Timeout => "⏸️ "
  | .TwoUp => "✌️ "
  | .TwoUpInverted => "🤞 "
  | .XSign => "❌ "
  | .Unknown => "⋯ "

/-- Per-frame gesture detail (src/types.rs). -/
structure GestureDetail where
  primary : GestureKind
  secondary : Option GestureKind
  handedness : Handedness
  finger_states : List FingerState
  motion : GestureMotion
deriving DecidableEq, Repr

/-- A 3-component landmark (x, y, z). -/
abbrev Vec3 := ℚ × ℚ × ℚ

/-- `sub` of src/gesture.rs. -/
def subV (a b : Vec3) : Vec3 := (a.1 - b.1, a.2.1 - b.2.1, a.2.2 - b.2.2)

/-- `dot` of src/gesture.rs. -/
def dotV (a b : Vec3) : ℚ := a.1 * b.1 + a.2.1 * b.2.1 + a.2.2 * b.2.2

/-- `distance3` of src/gesture.rs, with `f32::sqrt` as the parameter `sq`. -/
def distance3 (sq : ℚ → ℚ) (a b : Vec3) : ℚ :=
  sq ((a.1 - b.1) ^ 2 + (a.2.1 - b.2.1) ^ 2 + (a.2.2 - b.2.2) ^ 2)

/-- `normalize` of src/gesture.rs (zero vector below the 1e-5 length floor). -/
def normalizeV (sq : ℚ → ℚ) (v : Vec3) : Vec3 :=
  let len := sq (v.1 * v.1 + v.2.1 * v.2.1 + v.2.2 * v.2.2)
  if len < 1/100000 then (0, 0, 0) else (v.1 / len, v.2.1 / len, v.2.2 / len)

/-- `average_straightness` of src/gesture.rs. -/
def average_straightness (sq : ℚ → ℚ) (a b c : Vec3) : ℚ :=
  let ab := dotV (normalizeV sq a) (normalizeV sq b)
  let bc := dotV (normalizeV sq b) (normalizeV sq c)
  clampQ ((ab + bc) / 2) (-1) 1

/-- Landmark accessor: the source indexes `points[i]` directly, guarded by the
21-landmark check in `classify`; out-of-range reads default to the origin. -/
def lm (points : List Vec3) (i : ℕ) : Vec3 := points.getD i (0, 0, 0)

/-- Bounding-extent fold step for landmark lists. -/
def boundsStepXY (acc : ℚ × ℚ × ℚ × ℚ) (q : Vec3) : ℚ × ℚ × ℚ × ℚ :=
  (min acc.1 q.1, max acc.2.1 q.1, min acc.2.2.1 q.2.1, max acc.2.2.2 q.2.1)

/-- Bounding extents `(min_x, max_x, min_y, max_y)` of a landmark list.  The
source folds from `f32::MAX`/`f32::MIN` sentinels; on non-empty input that
equals this head-seeded fold (`classify` only passes 21 landmarks). -/
def boundsXY (points : List Vec3) : ℚ × ℚ × ℚ × ℚ :=
  match points with
  | [] => (0, 0, 0, 0)
  | p :: rest => rest.foldl boundsStepXY (p.1, p.1, p.2.1, p.2.1)

/-- `normalize_landmarks` of src/gesture.rs: translate by the bounding minimum
and divide by `max(span_x, span_y, 1e-3)`. -/
def normalize_landmarks (points : List Vec3) : List Vec3 × ℚ :=
  let b := boundsXY points
  let span := max (max (b.2.1 - b.1) (b.2.2.2 - b.2.2.1)) (1/1000)
  (points.map (fun p => ((p.1 - b.1) / span, (p.2.1 - b.2.2.1) / span, p.2.2 / span)), span)

/-- Bounding-extent fold step for projected 2-D points. -/
def boundsStepPt (acc : ℚ × ℚ × ℚ × ℚ) (q : ℚ × ℚ) : ℚ × ℚ × ℚ × ℚ :=
  (min acc.1 q.1, max acc.2.1 q.1, min acc.2.2.1 q.2, max acc.2.2.2 q.2)

/-- `projected_span` of src/gesture.rs: the larger bounding extent, floored at
1 pixel. -/
def projected_span (points : List (ℚ × ℚ)) : ℚ :=
  match points with
  | [] => 1
  | p :: rest =>
    let b := rest.foldl boundsStepPt (p.1, p.1, p.2, p.2)
    max (max (b.2.1 - b.1) (b.2.2.2 - b.2.2.1)) 1

/-- `classify_finger` of src/gesture.rs (thresholds 0.15, 0.40, 0.06 for
Extended; 0.08, 0.18, 0.05 for Folded). -/
def classify_finger (sq : ℚ → ℚ) (points : List Vec3) (i1 i2 i3 i4 : ℕ) : FingerState :=
  let wrist := lm points 0
  let mcp := lm points i1
  let pip := lm points i2
  let dip := lm points i3
  let tip := lm points i4
  let dist_tip := distance3 sq tip wrist
  let dist_pip := distance3 sq pip wrist
  let dist_mcp := distance3 sq mcp wrist
  let straightness := average_straightness sq (subV pip mcp) (subV dip pip) (subV tip dip)
  let extension := dist_tip - dist_pip
  let reach := dist_tip - dist_mcp
  if extension > 3/20 ∧ straightness > 2/5 ∧ reach > 3/50 then .Extended
  else if extension < 2/25 ∨ straightness < 9/50 ∨ reach < 1/20 then .Folded
  else .HalfBent

/-- `classify_thumb` of src/gesture.rs. -/
def classify_thumb (sq : ℚ → ℚ) (points : List Vec3) : FingerState :=
  let wrist := lm points 0
  let cmc := lm points 1
  let mcp := lm points 2
  let ip := lm points 3
  let tip := lm points 4
  let index_mcp := lm points 5
  let pinky_mcp := lm points 17
  let dist_tip_wrist := distance3 sq tip wrist
  let dist_ip_wrist := distance3 sq ip wrist
  let dist_mcp_wrist := distance3 sq mcp wrist
  let dist_tip_index := distance3 sq tip index_mcp
  let dist_tip_pinky := distance3 sq tip pinky_mcp
  let straightness := average_straightness sq (subV mcp cmc) (subV ip mcp) (subV tip ip)
  let spread := min dist_tip_index dist_tip_pinky
  let extension := dist_tip_wrist - dist_ip_wrist
  let reach := dist_tip_wrist - dist_mcp_wrist
  if spread < 1/4 ∧ (straightness < 7/25 ∨ reach < 3/20) then .Folded
  else if dist_tip_wrist > 3/10 ∧ straightness > 7/25 ∧ extension > 2/25 then .Extended
  else .HalfBent

/-- `handedness_from_score` of src/gesture.rs. -/
def handedness_from_score (score : ℚ) : Handedness :=
  if score ≥ 1/2 then .Right else if score > 0 then .Left else .Unknown

/-- `MIN_CONFIDENCE` of src/gesture.rs (0.2). -/
def MIN_CONFIDENCE : ℚ := 1/5

/-- `MOTION_WINDOW` of src/gesture.rs (1.2 s). -/
def MOTION_WINDOW : ℚ := 6/5

/-- `GestureClassifier::normalize_for_model` of src/gesture.rs. -/
def normalize_for_model (sq : ℚ → ℚ) (landmarks : List Vec3) : Option (List ℚ) :=
  if landmarks.length ≠ 21 then none
  else
    let pts0 : List (ℚ × ℚ) := landmarks.map (fun p => (p.1, p.2.1))
    let wrist := pts0.getD 0 (0, 0)
    let pts := pts0.map (fun p => (p.1 - wrist.1, p.2 - wrist.2))
    let p5 := pts.getD 5 (0, 0)
    let p17 := pts.getD 17 (0, 0)
    let palm_width := sq ((p5.1 - p17.1) ^ 2 + (p5.2 - p17.2) ^ 2)
    let p9 := pts.getD 9 (0, 0)
    let scale := if palm_width > 1/1000000 then palm_width else sq (p9.1 ^ 2 + p9.2 ^ 2)
    if scale ≤ 1/1000000 then none
    else some (pts.flatMap (fun p => [p.1 / scale, p.2 / scale]))

/-- Arg-max over logits: Rust `enumerate().max_by(...)` keeps the LAST maximal
index on ties, and `unwrap_or(0)` yields `0` on an empty list. -/
def argmaxLogits (logits : List ℚ) : ℕ :=
  match logits.enum.foldl (fun acc p =>
      match acc with
      | none => some p
      | some q => if p.2 < q.2 then some q else some p) none with
  | some q => q.1
  | none => 0

/-- The hardcoded HAGRID class-index table of
`GestureClassifier::load_model_and_classes`. -/
def classToGesture (i : ℕ) : Option GestureKind :=
  match i with
  | 0 => some .Call
  | 1 => some .Dislike
  | 2 => some .Fist
  | 3 => some .Four
  | 4 => some .Grabbing
  | 5 => some .Grip
  | 6 => some .HandHeart
  | 7 => some .HandHeart2
  | 8 => some .Holy
  | 9 => some .Like
  | 10 => some .LittleFinger
  | 11 => some .MiddleFinger
  | 12 => some .Mute
  | 13 => some .NoGesture
  | 14 => some .Ok
  | 15 => some .One
  | 16 => some .Palm
  | 17 => some .Peace
  | 18 => some .PeaceInverted
  | 19 => some .Point
  | 20 => some .Rock
  | 21 => some .Stop
  | 22 => some .StopInverted
  | 23 => some .TakePicture
  | 24 => some .Three
  | 25 => some .Three2
  | 26 => some .Three3
  | 27 => some .ThreeGun
  | 28 => some .ThumbIndex
  | 29 => some .ThumbIndex2
  | 30 => some .Timeout
  | 31 => some .TwoUp
  | 32 => some .TwoUpInverted
  | 33 => some .XSign
  | _ => none

/-- `GestureClassifier::detect_gesture_with_model`: the ONNX session is the
external collaborator (`none` models an unavailable model, `Except.error` a
failed inference; both yield `Unknown`). -/
def detect_gesture_with_model (sq : ℚ → ℚ)
    (session : Option (List ℚ → Except String (List ℚ))) (raw_landmarks : List Vec3) :
    GestureKind :=
  match session with
  | none => .Unknown
  | some run =>
    match normalize_for_model sq raw_landmarks with
    | none => .Unknown
    | some input =>
      match run input with
      | .error _ => .Unknown
      | .ok logits =>
        match classToGesture (argmaxLogits logits) with
        | some k => k
        | none => .Unknown

/-- `MotionSample` of src/gesture.rs. -/
structure MotionSample where
  time : ℚ
  x : ℚ
  y : ℚ
  span : ℚ
deriving DecidableEq, Repr

/-- `MotionTracker` of src/gesture.rs: the rolling sample window, front =
oldest. -/
structure MotionTracker where
  history : List MotionSample
deriving Repr

/-- The front-eviction loop of `MotionTracker::update`: pop while the front
sample is older than the window, stop at the first fresh one. -/
def evictOld (now : ℚ) : List MotionSample → List MotionSample
  | [] => []
  | s :: rest => if now - s.time > MOTION_WINDOW then evictOld now rest else s :: rest

/-- Bounding-extent fold step for motion samples. -/
def boundsStepSample (acc : ℚ × ℚ × ℚ × ℚ) (q : MotionSample) : ℚ × ℚ × ℚ × ℚ :=
  (min acc.1 q.x, max acc.2.1 q.x, min acc.2.2.1 q.y, max acc.2.2.2 q.y)

/-- Bounding extents `(min_x, max_x, min_y, max_y)` of the sample window (the
`f32::MAX/MIN` sentinel fold of the source, head-seeded; `update` only reads
it with ≥ 3 samples). -/
def boundsSamples (l : List MotionSample) : ℚ × ℚ × ℚ × ℚ :=
  match l with
  | [] => (0, 0, 0, 0)
  | s :: rest => rest.foldl boundsStepSample (s.x, s.x, s.y, s.y)

/-- The consecutive-pair scan of `direction_changes`, carrying the last seen
step sign. -/
def direction_changes_aux (sel : MotionSample → ℚ) (minStep : ℚ) :
    List (MotionSample × MotionSample) → Int → ℕ
  | [], _ => 0
  | (a, b) :: rest, lastSign =>
    let delta := sel b - sel a
    if |delta| < minStep then direction_changes_aux sel minStep rest lastSign
    else
      let sign : Int := if delta > 0 then 1 else -1
      (if lastSign ≠ 0 ∧ sign ≠ lastSign then 1 else 0) +
        direction_changes_aux sel minStep rest sign

/-- `direction_changes` of src/gesture.rs (`windows(2)` = zip with tail). -/
def direction_changes (samples : List MotionSample) (sel : MotionSample → ℚ)
    (minStep : ℚ) : ℕ :=
  direction_changes_aux sel minStep (samples.zip samples.tail) 0

/-- `MotionTracker::update` of src/gesture.rs: append the sample (span floored
at 1), evict stale samples, and classify the recent wrist trajectory. -/
def MotionTracker.update (t : MotionTracker) (point : ℚ × ℚ) (span now : ℚ)
    (primary : GestureKind) : GestureMotion × MotionTracker :=
  let hist := evictOld now (t.history ++ [⟨now, point.1, point.2, max span 1⟩])
  if hist.length < 3 then (.Steady, ⟨hist⟩)
  else
    let avg_span := (hist.map MotionSample.span).sum / (hist.length : ℚ)
    let norm := max avg_span 1
    let b := boundsSamples hist
    let span_x := (b.2.1 - b.1) / norm
    let span_y := (b.2.2.2 - b.2.2.1) / norm
    let dcx := direction_changes hist (fun s => s.x) (norm * (2/25))
    let dcy := direction_changes hist (fun s => s.y) (norm * (2/25))
    let is_open_palm := primary = GestureKind.Palm ∨ primary = GestureKind.Four ∨
      primary = GestureKind.Unknown
    if span_x > 11/20 ∧ dcx ≥ 2 ∧ is_open_palm then (.Fanning, ⟨hist⟩)
    else if span_y > 11/20 ∧ dcy ≥ 2 then (.VerticalWave, ⟨hist⟩)
    else if span_x > 1/4 ∨ span_y > 1/4 then (.Moving, ⟨hist⟩)
    else (.Steady, ⟨hist⟩)

/-- `GestureClassifier` state of src/gesture.rs: the motion tracker window and
the optional learned-model session (external collaborator); the class table
is the fixed `classToGesture`. -/
structure GestureClassifier where
  motion_tracker : MotionTracker
  model_session : Option (List ℚ → Except String (List ℚ))

/-- `GestureClassifier::classify` of src/gesture.rs (`sq` models `f32::sqrt`):
returns the optional per-frame detail and the updated classifier state. -/
def GestureClassifier.classify (sq : ℚ → ℚ) (c : GestureClassifier)
    (raw_landmarks : List Vec3) (projected_landmarks : List (ℚ × ℚ))
    (confidence handedness_score timestamp : ℚ) :
    Option GestureDetail × GestureClassifier :=
  if confidence < MIN_CONFIDENCE then (none, c)
  else if raw_landmarks.length < 21 ∨ projected_landmarks.length < 21 then (none, c)
  else
    let normalized := (normalize_landmarks raw_landmarks).1
    let wrist_px := projected_landmarks.getD 0 (0, 0)
    let span_px := projected_span projected_landmarks
    let finger_states := [classify_thumb sq normalized,
      classify_finger sq normalized 5 6 7 8,
      classify_finger sq normalized 9 10 11 12,
      classify_finger sq normalized 13 14 15 16,
      classify_finger sq normalized 17 18 19 20]
    let handedness := handedness_from_score handedness_score
    let primary := detect_gesture_with_model sq c.model_session raw_landmarks
    let mu := c.motion_tracker.update wrist_px span_px timestamp primary
    (some ⟨primary, none, handedness, finger_states, mu.1⟩, ⟨mu.2, c.model_session⟩)

/-- `HandposeOutput` of src/recognizer/common.rs. -/
structure HandposeOutput where
  raw_landmarks : List Vec3
  projected_landmarks : List (ℚ × ℚ)
  confidence : ℚ
  handedness : ℚ

/-- `GestureResult` as assembled by `build_gesture_result` in
src/recognizer/mod.rs. -/
structure GestureResult where
  label : String
  confidence : ℚ
  timestamp : ℚ
  landmarks : Option (List (ℚ × ℚ))
  detail : Option GestureDetail

/-- `build_gesture_result` of src/recognizer/mod.rs: gate on confidence ≥ 0.2,
classify, and assemble the per-frame result. -/
def build_gesture_result (sq : ℚ → ℚ) (output : HandposeOutput) (frame : Frame)
    (classifier : GestureClassifier) : GestureResult × GestureClassifier :=
  let cd :=
    if output.confidence ≥ MIN_CONFIDENCE then
      classifier.classify sq output.raw_landmarks output.projected_landmarks
        output.confidence output.handedness frame.timestamp
    else (none, classifier)
  let label :=
    match cd.1 with
    | some d => d.primary.emoji ++ d.primary.display_name
    | none => if output.confidence ≥ MIN_CONFIDENCE then "检测到手" else "未检测到手"
  (⟨label, output.confidence, frame.timestamp,
    if output.confidence ≥ MIN_CONFIDENCE then some output.projected_landmarks else none,
    cd.1⟩, cd.2)

/-- The `try_recv` drain of `recv_latest_frame`: keep replacing the held frame
with any newer queued one. -/
def recvDrain (f : Frame) : List Frame → Frame × List Frame
  | [] => (f, [])
  | newer :: rest => recvDrain newer rest

/-- `recv_latest_frame` of src/recognizer/mod.rs, modelled on the queue
contents (oldest first) at the time of the call: the blocking `recv` takes the
head (`none` = nothing will arrive, channel closed), then the non-blocking
drain discards everything but the newest.  Returns the frame to process and
the queue left behind. -/
def recv_latest_frame : List Frame → Option (Frame × List Frame)
  | [] => none
  | f :: rest => some (recvDrain f rest)

theorem iou_self (b : Box) (hx : b.x1 < b.x2) (hy : b.y1 < b.y2) : iou b b = 1 := by
  have hx' : (0 : ℚ) < b.x2 - b.x1 := by linarith
  have hy' : (0 : ℚ) < b.y2 - b.y1 := by linarith
  have harea : (0 : ℚ) < (b.x2 - b.x1) * (b.y2 - b.y1) := mul_pos hx' hy'
  simp only [iou, max_self, min_self]
  rw [max_eq_left hx'.le, max_eq_left hy'.le]
  rw [if_neg (by linarith)]
  have hu : (b.x2 - b.x1) * (b.y2 - b.y1) + (b.x2 - b.x1) * (b.y2 - b.y1) -
      (b.x2 - b.x1) * (b.y2 - b.y1) = (b.x2 - b.x1) * (b.y2 - b.y1) := by ring
  rw [hu, if_neg (by linarith)]
  exact div_self harea.ne'

theorem iou_zero_of_nonpos_inter (a b : Box)
    (h : min a.x2 b.x2 - max a.x1 b.x1 ≤ 0 ∨ min a.y2 b.y2 - max a.y1 b.y1 ≤ 0) :
    iou a b = 0 := by
  rcases h with h | h
  · simp only [iou, max_eq_right h]
    rw [zero_mul, if_pos le_rfl]
  · simp only [iou, max_eq_right h]
    rw [mul_zero, if_pos le_rfl]

theorem iou_of_disjoint (a b : Box)
    (h : a.x2 ≤ b.x1 ∨ b.x2 ≤ a.x1 ∨ a.y2 ≤ b.y1 ∨ b.y2 ≤ a.y1) :
    iou a b = 0 := by
  apply iou_zero_of_nonpos_inter
  rcases h with h | h | h | h
  · exact Or.inl (by have := min_le_left a.x2 b.x2; have := le_max_right a.x1 b.x1; linarith)
  · exact Or.inl (by have := min_le_right a.x2 b.x2; have := le_max_left a.x1 b.x1; linarith)
  · exact Or.inr (by have := min_le_left a.y2 b.y2; have := le_max_right a.y1 b.y1; linarith)
  · exact Or.inr (by have := min_le_right a.y2 b.y2; have := le_max_left a.y1 b.y1; linarith)

theorem iou_of_degenerate_left (a b : Box) (h : a.x2 ≤ a.x1 ∨ a.y2 ≤ a.y1) :
    iou a b = 0 := by
  apply iou_zero_of_nonpos_inter
  rcases h with h | h
  · exact Or.inl (by have := min_le_left a.x2 b.x2; have := le_max_left a.x1 b.x1; linarith)
  · exact Or.inr (by have := min_le_left a.y2 b.y2; have := le_max_left a.y1 b.y1; linarith)

theorem iou_of_degenerate_right (a b : Box) (h : b.x2 ≤ b.x1 ∨ b.y2 ≤ b.y1) :
    iou a b = 0 := by
  apply iou_zero_of_nonpos_inter
  rcases h with h | h
  · exact Or.inl (by have := min_le_right a.x2 b.x2; have := le_max_right a.x1 b.x1; linarith)
  · exact Or.inr (by have := min_le_right a.y2 b.y2; have := le_max_right a.y1 b.y1; linarith)

/-- C9: for every non-degenerate box b, `iou b b = 1`; disjoint boxes have
IoU `0`; and any comparison involving a zero-area box (width or height ≤ 0)
yields IoU `0`, in either argument position. -/
theorem C9_iou_identity_disjoint_zero_area :
    (∀ b : Box, b.x1 < b.x2 → b.y1 < b.y2 → iou b b = 1) ∧
    (∀ a b : Box, (a.x2 ≤ b.x1 ∨ b.x2 ≤ a.x1 ∨ a.y2 ≤ b.y1 ∨ b.y2 ≤ a.y1) →
      iou a b = 0) ∧
    (∀ a b : Box, (a.x2 ≤ a.x1 ∨ a.y2 ≤ a.y1) → iou a b = 0 ∧ iou b a = 0) :=
  ⟨iou_self, iou_of_disjoint,
   fun a b h => ⟨iou_of_degenerate_left a b h, iou_of_degenerate_right b a h⟩⟩

/-- Concrete instantiation of C9: a unit-square self-IoU, two disjoint boxes,
and a zero-width box, all evaluated on explicit inputs. -/
theorem C9_witness :
    iou ⟨0, 0, 2, 3⟩ ⟨0, 0, 2, 3⟩ = 1 ∧
    iou ⟨0, 0, 1, 1⟩ ⟨5, 0, 6, 1⟩ = 0 ∧
    (iou ⟨4, 0, 4, 3⟩ ⟨0, 0, 2, 2⟩ = 0 ∧ iou ⟨0, 0, 2, 2⟩ ⟨4, 0, 4, 3⟩ = 0) :=
  ⟨C9_iou_identity_disjoint_zero_area.1 ⟨0, 0, 2, 3⟩ (by norm_num) (by norm_num),
   C9_iou_identity_disjoint_zero_area.2.1 ⟨0, 0, 1, 1⟩ ⟨5, 0, 6, 1⟩ (by norm_num),
   C9_iou_identity_disjoint_zero_area.2.2 ⟨4, 0, 4, 3⟩ ⟨0, 0, 2, 2⟩ (by norm_num)⟩

theorem iou_comm (a b : Box) : iou a b = iou b a := by
  simp only [iou]
  rw [min_comm a.x2 b.x2, max_comm a.x1 b.x1, min_comm a.y2 b.y2, max_comm a.y1 b.y1,
    add_comm (max (a.x2 - a.x1) 0 * max (a.y2 - a.y1) 0)]

theorem nmsLoop_append (cands : List PalmCandidate) (thr : ℚ) (topK : ℕ) :
    ∀ (order keep : List ℕ), ∃ s, List.Sublist s order ∧
      nmsLoop cands thr topK order keep = keep ++ s := by
  intro order
  induction order with
  | nil => intro keep; exact ⟨[], List.Sublist.refl _, by simp [nmsLoop]⟩
  | cons idx rest ih =>
    intro keep
    simp only [nmsLoop]
    by_cases hall :
        keep.all (fun k => decide (iou (bboxAt cands idx) (bboxAt cands k) < thr)) = true
    · rw [if_pos hall]
      by_cases hk : topK ≤ keep.length + 1
      · rw [if_pos hk]
        exact ⟨[idx], (List.nil_sublist rest).cons₂ idx, rfl⟩
      · rw [if_neg hk]
        obtain ⟨s, hs, heq⟩ := ih (keep ++ [idx])
        exact ⟨idx :: s, hs.cons₂ idx, by rw [heq, List.append_assoc]; rfl⟩
    · rw [if_neg hall]
      obtain ⟨s, hs, heq⟩ := ih keep
      exact ⟨s, hs.cons idx, heq⟩

theorem nmsLoop_pairwise (cands : List PalmCandidate) (thr : ℚ) (topK : ℕ) :
    ∀ (order keep : List ℕ),
      keep.Pairwise (fun i j => iou (bboxAt cands i) (bboxAt cands j) < thr ∧
        iou (bboxAt cands j) (bboxAt cands i) < thr) →
      (nmsLoop cands thr topK order keep).Pairwise
        (fun i j => iou (bboxAt cands i) (bboxAt cands j) < thr ∧
          iou (bboxAt cands j) (bboxAt cands i) < thr) := by
  intro order
  induction order with
  | nil => intro keep hp; simpa [nmsLoop] using hp
  | cons idx rest ih =>
    intro keep hp
    simp only [nmsLoop]
    by_cases hall :
        keep.all (fun k => decide (iou (bboxAt cands idx) (bboxAt cands k) < thr)) = true
    · have hsep : ∀ k ∈ keep, iou (bboxAt cands idx) (bboxAt cands k) < thr := by
        intro k hk
        have := List.all_eq_true.mp hall k hk
        exact of_decide_eq_true this
      have hp' : (keep ++ [idx]).Pairwise
          (fun i j => iou (bboxAt cands i) (bboxAt cands j) < thr ∧
            iou (bboxAt cands j) (bboxAt cands i) < thr) := by
        rw [List.pairwise_append]
        refine ⟨hp, List.pairwise_singleton _ _, ?_⟩
        intro a ha b hb
        have hb' : b = idx := by simpa using hb
        subst hb'
        exact ⟨by rw [iou_comm]; exact hsep a ha, hsep a ha⟩
      rw [if_pos hall]
      by_cases hk : topK ≤ keep.length + 1
      · rw [if_pos hk]; exact hp'
      · rw [if_neg hk]; exact ih (keep ++ [idx]) hp'
    · rw [if_neg hall]
      exact ih keep hp

theorem nmsLoop_length (cands : List PalmCandidate) (thr : ℚ) (topK : ℕ) :
    ∀ (order keep : List ℕ), keep.length < topK →
      (nmsLoop cands thr topK order keep).length ≤ topK := by
  intro order
  induction order with
  | nil => intro keep h; simpa [nmsLoop] using h.le
  | cons idx rest ih =>
    intro keep h
    simp only [nmsLoop]
    by_cases hall :
        keep.all (fun k => decide (iou (bboxAt cands idx) (bboxAt cands k) < thr)) = true
    · rw [if_pos hall]
      by_cases hk : topK ≤ keep.length + 1
      · rw [if_pos hk]; simpa using h
      · rw [if_neg hk]
        have : (keep ++ [idx]).length < topK := by
          simpa using lt_of_not_le hk
        exact ih (keep ++ [idx]) this
    · rw [if_neg hall]
      exact ih keep h

/-- C2: for every candidate list (and every threshold and `top_k ≥ 1`, in
particular the defaults 0.3 and 32), the greedy NMS output has no two kept
boxes with IoU at least the threshold (in either order), has at most `top_k`
elements, and lists indices in non-increasing score order. -/
theorem C2_nms_properties (cands : List PalmCandidate) (thr : ℚ) (topK : ℕ)
    (htop : 1 ≤ topK) :
    ((nms cands thr topK).Pairwise
      (fun i j => iou (bboxAt cands i) (bboxAt cands j) < thr ∧
        iou (bboxAt cands j) (bboxAt cands i) < thr)) ∧
    (nms cands thr topK).length ≤ topK ∧
    ((nms cands thr topK).Pairwise (fun i j => scoreAt cands j ≤ scoreAt cands i)) := by
  refine ⟨nmsLoop_pairwise cands thr topK _ [] List.Pairwise.nil,
    nmsLoop_length cands thr topK _ [] (by simpa using htop), ?_⟩
  obtain ⟨s, hs, heq⟩ := nmsLoop_append cands thr topK (nmsOrder cands) []
  have hsorted : (nmsOrder cands).Pairwise (scoreGE cands) :=
    List.sorted_insertionSort (scoreGE cands) (List.range cands.length)
  have : (nms cands thr topK) = s := by simpa [nms] using heq
  rw [this]
  exact (hsorted.sublist hs).imp (fun h => h)

/-- Concrete instantiation of C2 on a three-candidate list with the default
threshold 0.3 and `top_k` 32. -/
theorem C2_witness :
    ((nms [⟨⟨0, 0, 10, 10⟩, [], 9/10⟩, ⟨⟨0, 0, 10, 10⟩, [], 8/10⟩,
        ⟨⟨20, 0, 30, 10⟩, [], 7/10⟩] (3/10) 32).Pairwise
      (fun i j =>
        iou (bboxAt [⟨⟨0, 0, 10, 10⟩, [], 9/10⟩, ⟨⟨0, 0, 10, 10⟩, [], 8/10⟩,
            ⟨⟨20, 0, 30, 10⟩, [], 7/10⟩] i)
          (bboxAt [⟨⟨0, 0, 10, 10⟩, [], 9/10⟩, ⟨⟨0, 0, 10, 10⟩, [], 8/10⟩,
            ⟨⟨20, 0, 30, 10⟩, [], 7/10⟩] j) < 3/10 ∧
        iou (bboxAt [⟨⟨0, 0, 10, 10⟩, [], 9/10⟩, ⟨⟨0, 0, 10, 10⟩, [], 8/10⟩,
            ⟨⟨20, 0, 30, 10⟩, [], 7/10⟩] j)
          (bboxAt [⟨⟨0, 0, 10, 10⟩, [], 9/10⟩, ⟨⟨0, 0, 10, 10⟩, [], 8/10⟩,
            ⟨⟨20, 0, 30, 10⟩, [], 7/10⟩] i) < 3/10)) ∧
    (nms [⟨⟨0, 0, 10, 10⟩, [], 9/10⟩, ⟨⟨0, 0, 10, 10⟩, [], 8/10⟩,
        ⟨⟨20, 0, 30, 10⟩, [], 7/10⟩] (3/10) 32).length ≤ 32 ∧
    ((nms [⟨⟨0, 0, 10, 10⟩, [], 9/10⟩, ⟨⟨0, 0, 10, 10⟩, [], 8/10⟩,
        ⟨⟨20, 0, 30, 10⟩, [], 7/10⟩] (3/10) 32).Pairwise
      (fun i j =>
        scoreAt [⟨⟨0, 0, 10, 10⟩, [], 9/10⟩, ⟨⟨0, 0, 10, 10⟩, [], 8/10⟩,
            ⟨⟨20, 0, 30, 10⟩, [], 7/10⟩] j ≤
        scoreAt [⟨⟨0, 0, 10, 10⟩, [], 9/10⟩, ⟨⟨0, 0, 10, 10⟩, [], 8/10⟩,
            ⟨⟨20, 0, 30, 10⟩, [], 7/10⟩] i)) :=
  C2_nms_properties _ (3/10) 32 (by norm_num)

theorem foldl_maxByScore_spec (rest : List PalmRegion) (r : PalmRegion) :
    ∃ l₁ l₂, r :: rest = l₁ ++ (rest.foldl maxByScore r) :: l₂ ∧
      (∀ x ∈ r :: rest, x.score ≤ (rest.foldl maxByScore r).score) ∧
      (∀ x ∈ l₂, x.score < (rest.foldl maxByScore r).score) := by
  induction rest using List.reverseRecOn with
  | nil =>
    exact ⟨[], [], rfl, by intro x hx; simp at hx; simp [hx], by intro x hx; simp at hx⟩
  | append_singleton t x ih =>
    obtain ⟨l₁, l₂, hsplit, hmax, hlast⟩ := ih
    rw [List.foldl_append]
    simp only [List.foldl_cons, List.foldl_nil]
    set c := t.foldl maxByScore r with hc
    by_cases hx : x.score < c.score
    · refine ⟨l₁, l₂ ++ [x], ?_, ?_, ?_⟩
      · rw [maxByScore, if_pos hx, ← List.cons_append, hsplit]
        simp [List.append_assoc]
      · intro y hy
        rw [maxByScore, if_pos hx]
        rcases (by simpa using hy : y = r ∨ y ∈ t ∨ y = x) with h | h | h
        · subst h; exact hmax _ (by simp)
        · exact hmax y (by simp [h])
        · subst h; exact hx.le
      · intro y hy
        rw [maxByScore, if_pos hx]
        rcases List.mem_append.mp hy with h | h
        · exact hlast y h
        · have : y = x := by simpa using h
          subst this; exact hx
    · refine ⟨r :: t, [], ?_, ?_, ?_⟩
      · rw [maxByScore, if_neg hx]
        simp
      · intro y hy
        rw [maxByScore, if_neg hx]
        rcases (by simpa using hy : y = r ∨ y ∈ t ∨ y = x) with h | h | h
        · subst h; exact le_trans (hmax _ (by simp)) (le_of_not_lt hx)
        · exact le_trans (hmax y (by simp [h])) (le_of_not_lt hx)
        · subst h; exact le_rfl
      · intro y hy; simp at hy

/-- C6 counterexample: two regions with equal score; the source's
`pick_primary_region` (built on `Iterator::max_by`) returns the second (last)
occurrence, not the first, refuting the claimed first-occurrence tie-break. -/
theorem C6_counterexample_tie_goes_last :
    pick_primary_region
        [⟨⟨0, 0, 1, 1⟩, [], 1/2⟩, ⟨⟨2, 2, 3, 3⟩, [], 1/2⟩] =
      some ⟨⟨2, 2, 3, 3⟩, [], 1/2⟩ ∧
    (⟨⟨2, 2, 3, 3⟩, [], 1/2⟩ : PalmRegion) ≠ ⟨⟨0, 0, 1, 1⟩, [], 1/2⟩ := by
  constructor
  · show pick_primary_region _ = _
    norm_num [pick_primary_region, maxByScore]
  · intro h
    have := congrArg (fun r => r.bbox.x1) h
    norm_num at this

/-- C6 amended: for every non-empty region list, the selected primary region
is a maximum-score survivor, with ties broken deterministically by LAST
occurrence in the list (every region after the returned one scores strictly
lower). -/
theorem C6_pick_primary_is_last_max (l : List PalmRegion) (h : l ≠ []) :
    ∃ r l₁ l₂, l = l₁ ++ r :: l₂ ∧ pick_primary_region l = some r ∧
      (∀ x ∈ l, x.score ≤ r.score) ∧ (∀ x ∈ l₂, x.score < r.score) := by
  match l, h with
  | r :: rest, _ =>
    obtain ⟨l₁, l₂, hsplit, hmax, hlast⟩ := foldl_maxByScore_spec rest r
    exact ⟨rest.foldl maxByScore r, l₁, l₂, hsplit, rfl, hmax, hlast⟩

/-- Concrete instantiation of the amended C6 on a two-region list. -/
theorem C6_witness :
    ∃ r l₁ l₂,
      ([⟨⟨0, 0, 1, 1⟩, [], 3/4⟩, ⟨⟨2, 2, 3, 3⟩, [], 1/4⟩] : List PalmRegion) =
        l₁ ++ r :: l₂ ∧
      pick_primary_region [⟨⟨0, 0, 1, 1⟩, [], 3/4⟩, ⟨⟨2, 2, 3, 3⟩, [], 1/4⟩] = some r ∧
      (∀ x ∈ ([⟨⟨0, 0, 1, 1⟩, [], 3/4⟩, ⟨⟨2, 2, 3, 3⟩, [], 1/4⟩] : List PalmRegion),
        x.score ≤ r.score) ∧
      (∀ x ∈ l₂, x.score < r.score) :=
  C6_pick_primary_is_last_max _ (by simp)

theorem clampQ_nonneg (x hi : ℚ) (h : 0 ≤ hi) : 0 ≤ clampQ x 0 hi :=
  le_min (le_max_right x 0) h

theorem clampQ_le_hi (x lo hi : ℚ) : clampQ x lo hi ≤ hi := min_le_right _ _

theorem clampQ_mono (x y lo hi : ℚ) (h : x ≤ y) : clampQ x lo hi ≤ clampQ y lo hi :=
  min_le_min (max_le_max h le_rfl) le_rfl

theorem sigmoid_mem_unit (expQ : ℚ → ℚ) (h : ∀ q, 0 ≤ expQ q) (x : ℚ) :
    0 ≤ sigmoid expQ x ∧ sigmoid expQ x ≤ 1 := by
  have h1 : (0 : ℚ) < 1 + expQ (-x) := by have := h (-x); linarith
  constructor
  · exact div_nonneg (by norm_num) h1.le
  · rw [sigmoid, div_le_one h1]
    have := h (-x); linarith

theorem clamp_box_invariant (raw : Box) (lb : LetterboxInfo) (score : ℚ)
    (hx : raw.x1 < raw.x2) (hy : raw.y1 < raw.y2) (hs : 0 ≤ score ∧ score ≤ 1) :
    regionInvariant lb (clamp_box raw lb.orig_w lb.orig_h) score := by
  have hw : (0 : ℚ) ≤ ((lb.orig_w - 1 : ℕ) : ℚ) := Nat.cast_nonneg _
  have hh : (0 : ℚ) ≤ ((lb.orig_h - 1 : ℕ) : ℚ) := Nat.cast_nonneg _
  refine ⟨⟨clampQ_nonneg _ _ hw, clampQ_le_hi _ _ _⟩,
    ⟨clampQ_nonneg _ _ hh, clampQ_le_hi _ _ _⟩,
    ⟨clampQ_nonneg _ _ hw, clampQ_le_hi _ _ _⟩,
    ⟨clampQ_nonneg _ _ hh, clampQ_le_hi _ _ _⟩,
    clampQ_mono _ _ _ _ hx.le, clampQ_mono _ _ _ _ hy.le, hs,
    raw, hx, hy, rfl⟩

theorem decodeAnchor_invariant (expQ : ℚ → ℚ) (anchors : List (ℚ × ℚ))
    (boxLandmark scores : List ℚ) (featureDim scoreFeatureDim : ℕ)
    (letterbox : LetterboxInfo) (cfg : PalmDetectorConfig) (anchorIdx : ℕ)
    (c : PalmCandidate) (hexp : ∀ q, 0 ≤ expQ q)
    (h : decodeAnchor expQ anchors boxLandmark scores featureDim scoreFeatureDim
      letterbox cfg anchorIdx = .ok (some c)) :
    regionInvariant letterbox c.bbox c.score := by
  simp only [decodeAnchor] at h
  split at h
  · simp at h
  · rename_i rawScore hget
    split at h
    · simp at h
    · split at h
      · simp at h
      · rename_i anchor hanchor
        split at h
        · rename_i cxRaw cyRaw wRaw hRaw heq4
          split at h
          · simp at h
          · rename_i hdeg
            split at h
            · simp at h
            · rename_i lms hlms
              rw [Except.ok.injEq, Option.some.injEq] at h
              subst h
              push_neg at hdeg
              exact clamp_box_invariant _ _ _ hdeg.1 hdeg.2
                (sigmoid_mem_unit expQ hexp rawScore)
        · simp at h

theorem collectCandidatesAux_invariant (expQ : ℚ → ℚ) (anchors : List (ℚ × ℚ))
    (boxLandmark scores : List ℚ) (featureDim scoreFeatureDim : ℕ)
    (letterbox : LetterboxInfo) (cfg : PalmDetectorConfig) (hexp : ∀ q, 0 ≤ expQ q) :
    ∀ (idxs : List ℕ) (acc cands : List PalmCandidate),
      (∀ c ∈ acc, regionInvariant letterbox c.bbox c.score) →
      collectCandidatesAux expQ anchors boxLandmark scores featureDim scoreFeatureDim
        letterbox cfg idxs acc = .ok cands →
      ∀ c ∈ cands, regionInvariant letterbox c.bbox c.score := by
  intro idxs
  induction idxs with
  | nil =>
    intro acc cands hacc h
    simp only [collectCandidatesAux] at h
    rw [Except.ok.injEq] at h
    subst h
    exact hacc
  | cons i rest ih =>
    intro acc cands hacc h
    simp only [collectCandidatesAux] at h
    split at h
    · simp at h
    · exact ih acc cands hacc h
    · rename_i c' hsome
      refine ih (acc ++ [c']) cands ?_ h
      intro c hc
      rcases List.mem_append.mp hc with hmem | hmem
      · exact hacc c hmem
      · have hcc : c = c' := by simpa using hmem
        subst hcc
        exact decodeAnchor_invariant expQ anchors boxLandmark scores featureDim
          scoreFeatureDim letterbox cfg i c hexp hsome

theorem collectCandidates_invariant (expQ : ℚ → ℚ) (anchors : List (ℚ × ℚ))
    (boxLandmark scores : List ℚ) (featureDim scoreFeatureDim : ℕ)
    (letterbox : LetterboxInfo) (cfg : PalmDetectorConfig) (hexp : ∀ q, 0 ≤ expQ q)
    (n : ℕ) (cands : List PalmCandidate)
    (h : collectCandidates expQ anchors boxLandmark scores featureDim scoreFeatureDim
      letterbox cfg n = .ok cands) :
    ∀ c ∈ cands, regionInvariant letterbox c.bbox c.score :=
  collectCandidatesAux_invariant expQ anchors boxLandmark scores featureDim
    scoreFeatureDim letterbox cfg hexp (List.range n) [] cands (by simp) h

theorem mem_regionsFromKept (cands : List PalmCandidate) (kept : List ℕ) (r : PalmRegion)
    (h : r ∈ regionsFromKept cands kept) :
    ∃ c ∈ cands, r = ⟨c.bbox, c.landmarks, c.score⟩ := by
  obtain ⟨i, hi, heq⟩ := List.mem_filterMap.mp h
  match hg : cands.get? i with
  | none => rw [hg] at heq; simp at heq
  | some c =>
    rw [hg] at heq
    simp at heq
    exact ⟨c, List.get?_mem hg, heq.symm⟩

/-- C7: every `PalmRegion` returned by `decode_palm_outputs` has its bbox
clamped into `[0, orig_w-1] × [0, orig_h-1]` with `x1 ≤ x2`, `y1 ≤ y2`, its
score in `[0, 1]`, and its bbox is the clamp of a non-degenerate raw box
(every degenerate box, `x2 ≤ x1` or `y2 ≤ y1`, was dropped before NMS). -/
theorem C7_decoded_region_invariants (expQ : ℚ → ℚ) (anchors : List (ℚ × ℚ))
    (boxLandmark : List ℚ) (boxShape : List ℕ) (scores : List ℚ) (scoreShape : List ℕ)
    (letterbox : LetterboxInfo) (cfg : PalmDetectorConfig) (regions : List PalmRegion)
    (hexp : ∀ q, 0 ≤ expQ q)
    (h : decode_palm_outputs expQ anchors boxLandmark boxShape scores scoreShape
      letterbox cfg = .ok regions) :
    ∀ r ∈ regions, regionInvariant letterbox r.bbox r.score := by
  intro r hr
  simp only [decode_palm_outputs] at h
  split at h
  · simp at h
  · split at h
    · simp at h
    · split at h
      · split at h
        · simp at h
        · split at h
          · simp at h
          · split at h
            · simp at h
            · rename_i cands hcands
              rw [Except.ok.injEq] at h
              subst h
              obtain ⟨c, hc, rfl⟩ := mem_regionsFromKept cands _ r hr
              exact collectCandidates_invariant expQ anchors boxLandmark scores _ _
                letterbox cfg hexp _ cands hcands c hc
      · simp at h

/-- Concrete instantiation of C7: a single-anchor decode (anchor `(1/2, 1/2)`,
raw score `0`, box deltas `[0, 0, 96, 96]`, exp modelled by the constant `1`)
yields exactly one region, with bbox `[48, 48, 144, 144]` and score `1/2`,
satisfying the full invariant. -/
theorem C7_witness :
    regionInvariant ⟨1, 0, 0, 192, 192⟩ (⟨48, 48, 144, 144⟩ : Box) (1/2) :=
  C7_decoded_region_invariants (fun _ => 1) [(1/2, 1/2)]
    [0, 0, 96, 96, 0, 0, 0, 0, 0, 0, 0, 0, 0, 0, 0, 0, 0, 0] [1, 1, 18] [0] [1, 1, 1]
    ⟨1, 0, 0, 192, 192⟩ ⟨1/2, 3/10, 32⟩
    [⟨⟨48, 48, 144, 144⟩, [(96, 96), (96, 96), (96, 96), (96, 96), (96, 96),
        (96, 96), (96, 96)], 1/2⟩]
    (fun _ => by norm_num) (by
      norm_num [decode_palm_outputs, collectCandidates, collectCandidatesAux, decodeAnchor,
        decodePalmLandmarks, decodePalmLandmarksAux, sigmoid, PALM_INPUT_SIZE, PALM_LANDMARKS,
        clamp_box, clampQ, nms, nmsOrder, nmsLoop, scoreAt, bboxAt, regionsFromKept,
        List.insertionSort, List.orderedInsert, List.filterMap_cons, List.filterMap_nil,
        show List.range 7 = [0, 1, 2, 3, 4, 5, 6] from rfl,
        show List.range 1 = [0] from rfl])
    ⟨⟨48, 48, 144, 144⟩, [(96, 96), (96, 96), (96, 96), (96, 96), (96, 96),
        (96, 96), (96, 96)], 1/2⟩ (by simp)

theorem clampQ_eq_self (x lo hi : ℚ) (h1 : lo ≤ x) (h2 : x ≤ hi) : clampQ x lo hi = x := by
  rw [clampQ, max_eq_left h1, min_eq_left h2]

/-- C4: `project` is the exact (over ℚ) inverse of the rasterisation mapping
of `prepare_rotated_crop`: for every destination pixel whose sampled source
point lies inside the clamp bounds — in particular the four crop-corner
pixels — projecting that pixel's centre coordinate returns exactly the
sampled source point; and the crop centre `(half, half)` projects back to the
transform's centre. -/
theorem C4_project_inverts_raster (t : CropTransform) :
    (∀ x y : ℕ,
      0 ≤ (rasterSrc t x y).1 → (rasterSrc t x y).1 ≤ ((t.orig_w - 1 : ℕ) : ℚ) →
      0 ≤ (rasterSrc t x y).2 → (rasterSrc t x y).2 ≤ ((t.orig_h - 1 : ℕ) : ℚ) →
      t.project ((x : ℚ) + 1/2) ((y : ℚ) + 1/2) = rasterSrc t x y) ∧
    (0 ≤ t.center.1 → t.center.1 ≤ ((t.orig_w - 1 : ℕ) : ℚ) →
     0 ≤ t.center.2 → t.center.2 ≤ ((t.orig_h - 1 : ℕ) : ℚ) →
      t.project ((t.output_size : ℚ) / 2) ((t.output_size : ℚ) / 2) = t.center) := by
  constructor
  · intro x y h1 h2 h3 h4
    have heq : t.project ((x : ℚ) + 1/2) ((y : ℚ) + 1/2) =
        (clampQ (rasterSrc t x y).1 0 ((t.orig_w - 1 : ℕ) : ℚ),
         clampQ (rasterSrc t x y).2 0 ((t.orig_h - 1 : ℕ) : ℚ)) := rfl
    rw [heq, clampQ_eq_self _ _ _ h1 h2, clampQ_eq_self _ _ _ h3 h4]
  · intro h1 h2 h3 h4
    simp only [CropTransform.project, sub_self, zero_mul, zero_sub, add_zero, neg_zero,
      sub_zero]
    rw [clampQ_eq_self _ _ _ h1 h2, clampQ_eq_self _ _ _ h3 h4]

/-- Concrete instantiation of C4: an axis-aligned transform (cos 1, sin 0)
with centre (10, 10), side 4, output size 4 on a 100×100 frame, checked at
the corner pixel (0, 0) and at the crop centre. -/
theorem C4_witness :
    (CropTransform.project ⟨(10, 10), 4, 1, 0, 4, 100, 100⟩
        (((0 : ℕ) : ℚ) + 1/2) (((0 : ℕ) : ℚ) + 1/2) =
      rasterSrc ⟨(10, 10), 4, 1, 0, 4, 100, 100⟩ 0 0) ∧
    (CropTransform.project ⟨(10, 10), 4, 1, 0, 4, 100, 100⟩
        (((4 : ℕ) : ℚ) / 2) (((4 : ℕ) : ℚ) / 2) = (10, 10)) :=
  ⟨(C4_project_inverts_raster ⟨(10, 10), 4, 1, 0, 4, 100, 100⟩).1 0 0
      (by norm_num [rasterSrc]) (by norm_num [rasterSrc])
      (by norm_num [rasterSrc]) (by norm_num [rasterSrc]),
   (C4_project_inverts_raster ⟨(10, 10), 4, 1, 0, 4, 100, 100⟩).2
      (by norm_num) (by norm_num) (by norm_num) (by norm_num)⟩

/-- C5: a frame whose buffer length differs from `width*height*4` makes both
letterbox preprocessing (for every resize collaborator and target size) and
rotated-crop preparation (for every crop request) fail with the size-mismatch
error; the buffer is neither truncated nor padded and, the embedding being
total, nothing is read out of bounds. -/
theorem C5_size_mismatch_rejected (frame : Frame)
    (h : frame.rgba.length ≠ frame.width * frame.height * 4) :
    (∀ resize target_size,
      prepare_frame_with_size resize frame target_size =
        .error (sizeMismatchMsg frame.rgba.length (frame.width * frame.height * 4))) ∧
    (∀ center side angleCos angleSin output_size,
      prepare_rotated_crop frame center side angleCos angleSin output_size =
        .error (sizeMismatchMsg frame.rgba.length (frame.width * frame.height * 4))) := by
  constructor
  · intro resize target_size
    simp only [prepare_frame_with_size]
    rw [if_pos h]
  · intro center side angleCos angleSin output_size
    simp only [prepare_rotated_crop]
    rw [if_pos h]

/-- Concrete instantiation of C5: a 2×2 frame with a 1-byte buffer (expected
16 bytes) is rejected by both preparation routines. -/
theorem C5_witness :
    (prepare_frame_with_size (fun _ _ _ _ _ => []) ⟨[0], 2, 2, 0⟩ 224 =
      .error (sizeMismatchMsg 1 16)) ∧
    (prepare_rotated_crop ⟨[0], 2, 2, 0⟩ (0, 0) 1 1 0 4 =
      .error (sizeMismatchMsg 1 16)) := by
  have h := C5_size_mismatch_rejected ⟨[0], 2, 2, 0⟩ (by norm_num)
  exact ⟨by simpa using h.1 (fun _ _ _ _ _ => []) 224, by simpa using h.2 (0, 0) 1 1 0 4⟩

/-- C1: with confidence < 0.2, `classify` returns `none` regardless of
landmark content, classifier state, handedness, timestamp or sqrt routine;
and the emitted `GestureResult` has `landmarks = none` and `detail = none`. -/
theorem C1_low_confidence_no_gesture :
    (∀ (sq : ℚ → ℚ) (c : GestureClassifier) (raw : List Vec3) (proj : List (ℚ × ℚ))
       (conf hs ts : ℚ), conf < 1/5 → (c.classify sq raw proj conf hs ts).1 = none) ∧
    (∀ (sq : ℚ → ℚ) (output : HandposeOutput) (frame : Frame) (c : GestureClassifier),
       output.confidence < 1/5 →
      (build_gesture_result sq output frame c).1.landmarks = none ∧
      (build_gesture_result sq output frame c).1.detail = none) := by
  constructor
  · intro sq c raw proj conf hs ts h
    simp only [GestureClassifier.classify, MIN_CONFIDENCE]
    rw [if_pos h]
  · intro sq output frame c h
    have hlt : ¬(output.confidence ≥ MIN_CONFIDENCE) := by
      rw [MIN_CONFIDENCE]; exact not_le.mpr h
    constructor
    · simp only [build_gesture_result]
      rw [if_neg hlt]
    · simp only [build_gesture_result]
      rw [if_neg hlt]

/-- Concrete instantiation of C1 at confidence 0.1. -/
theorem C1_witness :
    ((⟨⟨[]⟩, none⟩ : GestureClassifier).classify (fun _ => 0) [] [] (1/10) 0 0).1 = none ∧
    (build_gesture_result (fun _ => 0) ⟨[], [], 1/10, 0⟩ ⟨[], 0, 0, 0⟩
      ⟨⟨[]⟩, none⟩).1.landmarks = none ∧
    (build_gesture_result (fun _ => 0) ⟨[], [], 1/10, 0⟩ ⟨[], 0, 0, 0⟩
      ⟨⟨[]⟩, none⟩).1.detail = none :=
  ⟨C1_low_confidence_no_gesture.1 _ _ _ _ _ _ _ (by norm_num),
   (C1_low_confidence_no_gesture.2 _ _ _ _ (by norm_num)).1,
   (C1_low_confidence_no_gesture.2 _ _ _ _ (by norm_num)).2⟩

/-- C10: the emitted `GestureResult` has `landmarks = some projected` exactly
when confidence ≥ 0.2; and with confidence ≥ 0.2 but fewer than 21 decoded
raw landmarks, `landmarks` is `some` while `detail` is `none`. -/
theorem C10_landmarks_iff_confident (sq : ℚ → ℚ) (output : HandposeOutput)
    (frame : Frame) (c : GestureClassifier) :
    ((build_gesture_result sq output frame c).1.landmarks =
        some output.projected_landmarks ↔ 1/5 ≤ output.confidence) ∧
    (1/5 ≤ output.confidence → output.raw_landmarks.length < 21 →
      (build_gesture_result sq output frame c).1.landmarks =
          some output.projected_landmarks ∧
      (build_gesture_result sq output frame c).1.detail = none) := by
  by_cases hge : MIN_CONFIDENCE ≤ output.confidence
  · have hge' : (1/5 : ℚ) ≤ output.confidence := by rwa [MIN_CONFIDENCE] at hge
    constructor
    · constructor
      · intro _; exact hge'
      · intro _
        simp only [build_gesture_result]
        rw [if_pos hge]
    · intro _ hlen
      constructor
      · simp only [build_gesture_result]
        rw [if_pos hge]
      · simp only [build_gesture_result, GestureClassifier.classify]
        rw [if_pos hge, if_neg (not_lt.mpr hge), if_pos (Or.inl hlen)]
  · have hlt : output.confidence < 1/5 := by
      rw [MIN_CONFIDENCE] at hge; exact not_le.mp hge
    constructor
    · constructor
      · intro h
        exfalso
        have hnone : (build_gesture_result sq output frame c).1.landmarks = none := by
          simp only [build_gesture_result]
          rw [if_neg hge]
        rw [hnone] at h
        exact Option.noConfusion h
      · intro h; exact absurd h (not_le.mpr hlt)
    · intro h; exact absurd h (not_le.mpr hlt)

/-- Concrete instantiation of C10: confidence 0.5 with an empty raw-landmark
list yields `landmarks = some projected` and `detail = none`. -/
theorem C10_witness :
    (build_gesture_result (fun _ => 0) ⟨[], [(1, 2)], 1/2, 0⟩ ⟨[], 0, 0, 0⟩
        ⟨⟨[]⟩, none⟩).1.landmarks = some [(1, 2)] ∧
    (build_gesture_result (fun _ => 0) ⟨[], [(1, 2)], 1/2, 0⟩ ⟨[], 0, 0, 0⟩
        ⟨⟨[]⟩, none⟩).1.detail = none :=
  ⟨(C10_landmarks_iff_confident (fun _ => 0) ⟨[], [(1, 2)], 1/2, 0⟩ ⟨[], 0, 0, 0⟩
      ⟨⟨[]⟩, none⟩).1.mpr (by norm_num),
   ((C10_landmarks_iff_confident (fun _ => 0) ⟨[], [(1, 2)], 1/2, 0⟩ ⟨[], 0, 0, 0⟩
      ⟨⟨[]⟩, none⟩).2 (by norm_num) (by norm_num)).2⟩

theorem recvDrain_getLast :
    ∀ (rest : List Frame) (f : Frame),
      recvDrain f rest = ((f :: rest).getLast (by simp), []) := by
  intro rest
  induction rest with
  | nil => intro f; rfl
  | cons n rest ih =>
    intro f
    simp only [recvDrain]
    rw [ih n]
    simp [List.getLast_cons]

/-- C3: `recv_latest_frame` returns only the newest queued frame and leaves
the queue empty, discarding all older queued frames unprocessed; in
particular with `f1, f2` queued and `f3` arrived before any was consumed,
only `f3` is returned. -/
theorem C3_latest_frame_wins (q : List Frame) (h : q ≠ []) :
    recv_latest_frame q = some (q.getLast h, []) ∧
    ∀ f1 f2 f3 : Frame, recv_latest_frame [f1, f2, f3] = some (f3, []) := by
  constructor
  · match q, h with
    | f :: rest, _ =>
      simp only [recv_latest_frame]
      rw [recvDrain_getLast rest f]
  · intro f1 f2 f3
    simp only [recv_latest_frame, recvDrain]

/-- Concrete instantiation of C3 at a one-frame queue and an explicit
three-frame scenario. -/
theorem C3_witness :
    recv_latest_frame [(⟨[], 0, 0, 0⟩ : Frame)] = some ((⟨[], 0, 0, 0⟩ : Frame), []) ∧
    ∀ f1 f2 f3 : Frame, recv_latest_frame [f1, f2, f3] = some (f3, []) := by
  have h := C3_latest_frame_wins [(⟨[], 0, 0, 0⟩ : Frame)] (by simp)
  exact ⟨by simpa using h.1, h.2⟩

theorem mem_evictOld (now : ℚ) :
    ∀ (l : List MotionSample) (s : MotionSample), s ∈ evictOld now l → s ∈ l := by
  intro l
  induction l with
  | nil => intro s hs; simp [evictOld] at hs
  | cons a rest ih =>
    intro s hs
    simp only [evictOld] at hs
    split at hs
    · exact List.mem_cons_of_mem a (ih s hs)
    · exact hs

theorem evictOld_fresh (now : ℚ) :
    ∀ l : List MotionSample, (l.Pairwise fun a b => a.time ≤ b.time) →
      ∀ s ∈ evictOld now l, now - s.time ≤ 6/5 := by
  intro l
  induction l with
  | nil => intro _ s hs; simp [evictOld] at hs
  | cons a rest ih =>
    intro hp s hs
    simp only [evictOld, MOTION_WINDOW] at hs
    split at hs
    · exact ih hp.of_cons s hs
    · rename_i hfresh
      push_neg at hfresh
      rcases List.mem_cons.mp hs with rfl | hmem
      · exact hfresh
      · have := (List.pairwise_cons.mp hp).1 s hmem
        linarith

theorem update_history (t : MotionTracker) (point : ℚ × ℚ) (span now : ℚ)
    (primary : GestureKind) :
    (t.update point span now primary).2 =
      ⟨evictOld now (t.history ++ [⟨now, point.1, point.2, max span 1⟩])⟩ := by
  simp only [MotionTracker.update]
  split
  · rfl
  · split
    · rfl
    · split
      · rfl
      · split
        · rfl
        · rfl

theorem foldl_boundsStep_const (cx cy : ℚ) :
    ∀ rest : List MotionSample, (∀ q ∈ rest, q.x = cx ∧ q.y = cy) →
      rest.foldl boundsStepSample (cx, cx, cy, cy) = (cx, cx, cy, cy) := by
  intro rest
  induction rest with
  | nil => intro _; rfl
  | cons q rest ih =>
    intro hq
    have h1 := hq q (by simp)
    simp only [List.foldl_cons, boundsStepSample, h1.1, h1.2, min_self, max_self]
    exact ih (fun p hp => hq p (by simp [hp]))

theorem boundsSamples_const (cx cy : ℚ) (l : List MotionSample) (hne : l ≠ [])
    (hall : ∀ q ∈ l, q.x = cx ∧ q.y = cy) :
    boundsSamples l = (cx, cx, cy, cy) := by
  match l, hne with
  | s :: rest, _ =>
    have hs := hall s (by simp)
    simp only [boundsSamples, hs.1, hs.2]
    exact foldl_boundsStep_const cx cy rest (fun p hp => hall p (by simp [hp]))

/-- C8: after `MotionTracker::update`, (a) with a time-ordered window no
retained sample is older than 1.2 s relative to the newest (the just-appended
one); (b) whenever fewer than 3 samples remain in the window, the reported
motion is Steady; (c) a stationary point sequence (identical x and y across
the window and the new sample) reports Steady regardless of span values. -/
theorem C8_motion_window_eviction_and_steady (t : MotionTracker) (point : ℚ × ℚ)
    (span now : ℚ) (primary : GestureKind) :
    ((t.history.Pairwise fun a b => a.time ≤ b.time) →
     (∀ s ∈ t.history, s.time ≤ now) →
     ∀ s ∈ (t.update point span now primary).2.history, now - s.time ≤ 6/5) ∧
    ((t.update point span now primary).2.history.length < 3 →
      (t.update point span now primary).1 = .Steady) ∧
    ((∀ s ∈ t.history, s.x = point.1 ∧ s.y = point.2) →
      (t.update point span now primary).1 = .Steady) := by
  refine ⟨?_, ?_, ?_⟩
  · intro hp hle s hs
    rw [update_history] at hs
    have hp' : ((t.history ++ [(⟨now, point.1, point.2, max span 1⟩ : MotionSample)]).Pairwise
        fun a b => a.time ≤ b.time) := by
      rw [List.pairwise_append]
      refine ⟨hp, List.pairwise_singleton _ _, ?_⟩
      intro a ha b hb
      have hb' : b = ⟨now, point.1, point.2, max span 1⟩ := by simpa using hb
      subst hb'
      exact hle a ha
    exact evictOld_fresh now _ hp' s hs
  · intro hlen
    rw [update_history] at hlen
    simp only [MotionTracker.update]
    rw [if_pos hlen]
  · intro hxy
    have hall : ∀ s ∈ evictOld now (t.history ++ [⟨now, point.1, point.2, max span 1⟩]),
        s.x = point.1 ∧ s.y = point.2 := by
      intro s hs
      rcases List.mem_append.mp (mem_evictOld now _ s hs) with h | h
      · exact hxy s h
      · have hs' : s = ⟨now, point.1, point.2, max span 1⟩ := by simpa using h
        subst hs'
        exact ⟨rfl, rfl⟩
    simp only [MotionTracker.update]
    split
    · rfl
    · rename_i hlen
      have hne : evictOld now (t.history ++ [⟨now, point.1, point.2, max span 1⟩]) ≠ [] := by
        intro he
        rw [he] at hlen
        simp at hlen
      rw [boundsSamples_const point.1 point.2 _ hne hall]
      norm_num

/-- Concrete instantiation of C8 on an empty tracker updated at time 10 with a
stationary wrist point. -/
theorem C8_witness :
    (∀ s ∈ ((⟨[]⟩ : MotionTracker).update (1, 2) 5 10 .Palm).2.history,
      (10 : ℚ) - s.time ≤ 6/5) ∧
    ((⟨[]⟩ : MotionTracker).update (1, 2) 5 10 .Palm).1 = .Steady :=
  ⟨(C8_motion_window_eviction_and_steady ⟨[]⟩ (1, 2) 5 10 .Palm).1 (by simp) (by simp),
   (C8_motion_window_eviction_and_steady ⟨[]⟩ (1, 2) 5 10 .Palm).2.2 (by simp)⟩

end GestureUniverse
